import Mathlib

/-!
# Verification of the watchlist-kata subscription service

Shallow embedding of `internal/service/service.go` and the gateway-enabled
`PostgresSubscriptionRepository` it delegates to.  The database is modelled as
the list of rows of the `subscription` table; the four downstream gRPC
gateways (watchlist, media, user, review) are modelled as response functions
that either return a record or fail with an opaque error message, exactly as
an opaque Go `error` does.  A Go `context.Context` is modelled by the one bit
the code inspects: whether `ctx.Done()` has already fired.  Timestamps
(`CreatedAt`/`UpdatedAt` on the gorm model) are carried by no operation the
service exposes and are omitted.
-/

namespace Subscription

/-- gRPC status codes used by the service layer (`google.golang.org/grpc/codes`). -/
inductive Code where
  | canceled
  | invalidArgument
  | alreadyExists
  | notFound
  | internal
  deriving DecidableEq, Repr

/-- One row of the `subscription` table (`GormSubscription`): a directed follow
edge `subscriber_id -> user_id`.  The (irrelevant) surrogate key and
timestamps are omitted. -/
structure GormSubscription where
  subscriberID : Nat
  userID : Nat
  deriving DecidableEq, Repr

/-- The `subscription` table: rows in insertion order (gorm `Create` appends,
`Find` scans in order). -/
abbrev Store := List GormSubscription

/-- The error message of Go's `context.Canceled`, returned by `ctx.Err()`. -/
def ctxCanceledMsg : String := "context canceled"

/-- The gorm `Where("subscriber_id = ? AND user_id = ?").First` probe of
`PostgresSubscriptionRepository.IsSubscribed`: does a row for the edge exist? -/
def edgeExists (db : Store) (subscriberID userID : Nat) : Bool :=
  db.any fun s => s.subscriberID == subscriberID && s.userID == userID

/-- Number of rows recording the edge `(subscriberID, userID)`. -/
def countEdge (db : Store) (subscriberID userID : Nat) : Nat :=
  db.countP fun s => s.subscriberID == subscriberID && s.userID == userID

/-- `PostgresSubscriptionRepository.IsSubscribed`: cancellation check, then the
`First` probe; `gorm.ErrRecordNotFound` is translated to `(false, nil)`. -/
def repoIsSubscribed (cancelled : Bool) (db : Store) (subscriberID userID : Nat) :
    Except String Bool :=
  if cancelled then .error ctxCanceledMsg
  else .ok (edgeExists db subscriberID userID)

/-- `PostgresSubscriptionRepository.Subscribe`: cancellation check, then
`db.Create` of the new row (returns the new table alongside the result). -/
def repoSubscribe (cancelled : Bool) (db : Store) (subscriberID userID : Nat) :
    Except String Unit × Store :=
  if cancelled then (.error ctxCanceledMsg, db)
  else (.ok (), db ++ [⟨subscriberID, userID⟩])

/-- `PostgresSubscriptionRepository.Unsubscribe`: cancellation check, then
`db.Where(...).Delete(...)`.  gorm's `Delete` removes every matching row and
reports an error only on a storage failure — deleting zero rows is a success. -/
def repoUnsubscribe (cancelled : Bool) (db : Store) (subscriberID userID : Nat) :
    Except String Unit × Store :=
  if cancelled then (.error ctxCanceledMsg, db)
  else (.ok (), db.filter fun s => !(s.subscriberID == subscriberID && s.userID == userID))

/-- The ids followed by `userID`, in row order: the pure content of
`db.Where("subscriber_id = ?").Find` followed by the projection loop. -/
def listFollowed (db : Store) (userID : Nat) : List Nat :=
  (db.filter fun s => s.subscriberID == userID).map fun s => s.userID

/-- The ids following `userID`, in row order. -/
def listFollowers (db : Store) (userID : Nat) : List Nat :=
  (db.filter fun s => s.userID == userID).map fun s => s.subscriberID

/-- `PostgresSubscriptionRepository.GetSubscriptions`. -/
def repoGetSubscriptions (cancelled : Bool) (db : Store) (userID : Nat) :
    Except String (List Nat) :=
  if cancelled then .error ctxCanceledMsg
  else .ok (listFollowed db userID)

/-- `PostgresSubscriptionRepository.GetSubscribers`. -/
def repoGetSubscribers (cancelled : Bool) (db : Store) (userID : Nat) :
    Except String (List Nat) :=
  if cancelled then .error ctxCanceledMsg
  else .ok (listFollowers db userID)

/-! ## Downstream gateway records (proto messages) -/

/-- One entry of a `watchlist.GetWatchlistResponse` (fields the code reads:
`MediaId`, `UserId`; proto `int64`). -/
structure ProtoWatchlistItem where
  mediaId : Int
  userId : Int
  deriving DecidableEq, Repr

/-- A `media.GetMediaByIDResponse` (fields the code reads: `NameEn`,
`Description`, `Year`). -/
structure MediaResponse where
  nameEn : String
  description : String
  year : Int
  deriving DecidableEq, Repr

/-- A `user.GetUserResponse`, flattened to the one field the code reads
(`userResponse.User.Username`). -/
structure UserResponse where
  username : String
  deriving DecidableEq, Repr

/-- One entry of a `review.GetByUserResponse` (fields the code reads: `Id`,
`UserId`, `Content`, `Rating`, `MediaId`). -/
structure ProtoReview where
  id : Int
  userId : Int
  content : String
  rating : Int
  mediaId : Int
  deriving DecidableEq, Repr

/-- The four downstream gateway clients, as response functions keyed by the
`int64` id each request carries.  An `error` return models a failed RPC. -/
structure Gateways where
  getWatchlist : Int → Except String (List ProtoWatchlistItem)
  getMediaByID : Int → Except String MediaResponse
  getUserByID : Int → Except String UserResponse
  getReviewsByUser : Int → Except String (List ProtoReview)

/-- A `subscription.WatchlistItem` as assembled by
`GetWatchlistsBySubscription`. -/
structure WatchlistItem where
  mediaId : Int
  userId : Int
  userName : String
  title : String
  description : String
  deriving DecidableEq, Repr

/-- A `subscription.ReviewItem` as assembled by `GetReviewsBySubscription`. -/
structure ReviewItem where
  reviewId : Int
  userId : Int
  userName : String
  content : String
  rating : Int
  mediaName : String
  mediaYear : Int
  deriving DecidableEq, Repr

/-! ## The aggregation fan-out loops

`GetWatchlistsBySubscription` iterates over the followed ids, fetches each
followed user's watchlist, and for each entry fetches the media record and the
followed user's profile, appending one joined item per entry to the `watchlists`
accumulator.  The first failing lookup aborts the whole call.  The inner and
outer `for` loops are translated as two recursions threading the accumulator. -/

/-- Body of the inner `for _, watchlistItem := range watchlistResponse.Watchlists`
loop of `GetWatchlistsBySubscription`, threading the `watchlists` accumulator. -/
def watchlistLoopInner (gw : Gateways) (subscribedToID : Nat) (acc : List WatchlistItem) :
    List ProtoWatchlistItem → Except String (List WatchlistItem)
  | [] => .ok acc
  | it :: rest => do
    let mediaResponse ← gw.getMediaByID it.mediaId
    let userResponse ← gw.getUserByID (Int.ofNat subscribedToID)
    watchlistLoopInner gw subscribedToID
      (acc ++ [{ mediaId := it.mediaId, userId := it.userId,
                 userName := userResponse.username, title := mediaResponse.nameEn,
                 description := mediaResponse.description }]) rest

/-- Body of the outer `for _, subscribedToID := range subscribedToIDs` loop of
`GetWatchlistsBySubscription`. -/
def watchlistLoopOuter (gw : Gateways) (acc : List WatchlistItem) :
    List Nat → Except String (List WatchlistItem)
  | [] => .ok acc
  | subscribedToID :: rest => do
    let resp ← gw.getWatchlist (Int.ofNat subscribedToID)
    let acc' ← watchlistLoopInner gw subscribedToID acc resp
    watchlistLoopOuter gw acc' rest

/-- `PostgresSubscriptionRepository.GetWatchlistsBySubscription`: cancellation
check, resolve the follow-set, then the fan-out loops. -/
def repoGetWatchlistsBySubscription (cancelled : Bool) (db : Store) (gw : Gateways)
    (userID : Nat) : Except String (List WatchlistItem) :=
  if cancelled then .error ctxCanceledMsg
  else do
    let subscribedToIDs ← repoGetSubscriptions cancelled db userID
    watchlistLoopOuter gw [] subscribedToIDs

/-- Body of the inner `for _, reviewProto := range reviewResponse.Reviews` loop
of `GetReviewsBySubscription`. -/
def reviewLoopInner (gw : Gateways) (subscribedToID : Nat) (acc : List ReviewItem) :
    List ProtoReview → Except String (List ReviewItem)
  | [] => .ok acc
  | rv :: rest => do
    let mediaResponse ← gw.getMediaByID rv.mediaId
    let userResponse ← gw.getUserByID (Int.ofNat subscribedToID)
    reviewLoopInner gw subscribedToID
      (acc ++ [{ reviewId := rv.id, userId := rv.userId,
                 userName := userResponse.username, content := rv.content,
                 rating := rv.rating, mediaName := mediaResponse.nameEn,
                 mediaYear := mediaResponse.year }]) rest

/-- Body of the outer loop of `GetReviewsBySubscription`. -/
def reviewLoopOuter (gw : Gateways) (acc : List ReviewItem) :
    List Nat → Except String (List ReviewItem)
  | [] => .ok acc
  | subscribedToID :: rest => do
    let resp ← gw.getReviewsByUser (Int.ofNat subscribedToID)
    let acc' ← reviewLoopInner gw subscribedToID acc resp
    reviewLoopOuter gw acc' rest

/-- `PostgresSubscriptionRepository.GetReviewsBySubscription`. -/
def repoGetReviewsBySubscription (cancelled : Bool) (db : Store) (gw : Gateways)
    (userID : Nat) : Except String (List ReviewItem) :=
  if cancelled then .error ctxCanceledMsg
  else do
    let subscribedToIDs ← repoGetSubscriptions cancelled db userID
    reviewLoopOuter gw [] subscribedToIDs

/-! ## Service layer (`subscriptionService`)

Each entry point first runs `checkContextCancelled` and fails with
`codes.Canceled`; business validation and error classification follow the Go
control flow line by line.  Mutating operations return the new table so that
state changes are observable. -/

/-- `subscriptionService.IsSubscribed`. -/
def svcIsSubscribed (cancelled : Bool) (db : Store) (subscriberID subscribeToID : Nat) :
    Except Code Bool :=
  if cancelled then .error .canceled
  else
    match repoIsSubscribed cancelled db subscriberID subscribeToID with
    | .error _ => .error .internal
    | .ok v => .ok v

/-- `subscriptionService.Subscribe`: cancellation, self-follow rejection,
duplicate check via `IsSubscribed`, then delegation to the repository. -/
def svcSubscribe (cancelled : Bool) (db : Store) (subscriberID subscribeToID : Nat) :
    Except Code Unit × Store :=
  if cancelled then (.error .canceled, db)
  else if subscriberID == subscribeToID then (.error .invalidArgument, db)
  else
    match svcIsSubscribed cancelled db subscriberID subscribeToID with
    | .error _ => (.error .internal, db)
    | .ok true => (.error .alreadyExists, db)
    | .ok false =>
      match repoSubscribe cancelled db subscriberID subscribeToID with
      | (.error _, db') => (.error .internal, db')
      | (.ok _, db') => (.ok (), db')

/-- `subscriptionService.Unsubscribe`: cancellation, absent-edge rejection via
`IsSubscribed`, then delegation to the repository. -/
def svcUnsubscribe (cancelled : Bool) (db : Store) (subscriberID subscribeToID : Nat) :
    Except Code Unit × Store :=
  if cancelled then (.error .canceled, db)
  else
    match svcIsSubscribed cancelled db subscriberID subscribeToID with
    | .error _ => (.error .internal, db)
    | .ok false => (.error .notFound, db)
    | .ok true =>
      match repoUnsubscribe cancelled db subscriberID subscribeToID with
      | (.error _, db') => (.error .internal, db')
      | (.ok _, db') => (.ok (), db')

/-- `subscriptionService.GetSubscriptions`. -/
def svcGetSubscriptions (cancelled : Bool) (db : Store) (userID : Nat) :
    Except Code (List Nat) :=
  if cancelled then .error .canceled
  else
    match repoGetSubscriptions cancelled db userID with
    | .error _ => .error .internal
    | .ok ids => .ok ids

/-- `subscriptionService.GetSubscribers`. -/
def svcGetSubscribers (cancelled : Bool) (db : Store) (userID : Nat) :
    Except Code (List Nat) :=
  if cancelled then .error .canceled
  else
    match repoGetSubscribers cancelled db userID with
    | .error _ => .error .internal
    | .ok ids => .ok ids

/-- `subscriptionService.GetWatchlistsBySubscription`. -/
def svcGetWatchlistsBySubscription (cancelled : Bool) (db : Store) (gw : Gateways)
    (userID : Nat) : Except Code (List WatchlistItem) :=
  if cancelled then .error .canceled
  else
    match repoGetWatchlistsBySubscription cancelled db gw userID with
    | .error _ => .error .internal
    | .ok items => .ok items

/-- `subscriptionService.GetReviewsBySubscription`. -/
def svcGetReviewsBySubscription (cancelled : Bool) (db : Store) (gw : Gateways)
    (userID : Nat) : Except Code (List ReviewItem) :=
  if cancelled then .error .canceled
  else
    match repoGetReviewsBySubscription cancelled db gw userID with
    | .error _ => .error .internal
    | .ok items => .ok items

/-! ## Compositional form of the fan-out

The accumulator-threading loops above are the literal translation of the Go
`for`-loops.  For reasoning we restate them compositionally: join one entry,
join one followed user's entries in order, concatenate per-user lists in
follow-set order.  The `loopOuter_eq`/`loopInner_eq` lemmas prove the two
presentations equal, so every theorem below is a theorem about the source
loops. -/

/-- The join of one watchlist entry: media lookup by the entry's media id,
user lookup by the followed id, then the assembled `WatchlistItem`. -/
def joinEntryW (gw : Gateways) (fid : Nat) (e : ProtoWatchlistItem) :
    Except String WatchlistItem := do
  let m ← gw.getMediaByID e.mediaId
  let u ← gw.getUserByID (Int.ofNat fid)
  pure { mediaId := e.mediaId, userId := e.userId, userName := u.username,
         title := m.nameEn, description := m.description }

/-- In-order join of a list of watchlist entries for one followed user. -/
def joinEntriesW (gw : Gateways) (fid : Nat) :
    List ProtoWatchlistItem → Except String (List WatchlistItem)
  | [] => .ok []
  | e :: rest => do
    let it ← joinEntryW gw fid e
    let its ← joinEntriesW gw fid rest
    pure (it :: its)

/-- The full join for one followed user: fetch the watchlist, join entries. -/
def joinUserW (gw : Gateways) (fid : Nat) : Except String (List WatchlistItem) := do
  let resp ← gw.getWatchlist (Int.ofNat fid)
  joinEntriesW gw fid resp

/-- Concatenation of per-user joined lists, in follow-set order. -/
def joinUsersW (gw : Gateways) : List Nat → Except String (List WatchlistItem)
  | [] => .ok []
  | fid :: rest => do
    let l1 ← joinUserW gw fid
    let l2 ← joinUsersW gw rest
    pure (l1 ++ l2)

/-- The join of one review: media lookup by the review's media id, user lookup
by the followed id, then the assembled `ReviewItem`. -/
def joinEntryR (gw : Gateways) (fid : Nat) (rv : ProtoReview) :
    Except String ReviewItem := do
  let m ← gw.getMediaByID rv.mediaId
  let u ← gw.getUserByID (Int.ofNat fid)
  pure { reviewId := rv.id, userId := rv.userId, userName := u.username,
         content := rv.content, rating := rv.rating, mediaName := m.nameEn,
         mediaYear := m.year }

/-- In-order join of one followed user's reviews. -/
def joinEntriesR (gw : Gateways) (fid : Nat) :
    List ProtoReview → Except String (List ReviewItem)
  | [] => .ok []
  | rv :: rest => do
    let it ← joinEntryR gw fid rv
    let its ← joinEntriesR gw fid rest
    pure (it :: its)

/-- The full join for one followed user's reviews. -/
def joinUserR (gw : Gateways) (fid : Nat) : Except String (List ReviewItem) := do
  let resp ← gw.getReviewsByUser (Int.ofNat fid)
  joinEntriesR gw fid resp

/-- Concatenation of per-user joined review lists, in follow-set order. -/
def joinUsersR (gw : Gateways) : List Nat → Except String (List ReviewItem)
  | [] => .ok []
  | fid :: rest => do
    let l1 ← joinUserR gw fid
    let l2 ← joinUsersR gw rest
    pure (l1 ++ l2)

/-! ## Concrete scenario fixtures

The store and gateway states of the spec's testable scenarios: user 1 follows
user 2; user 2's watchlist holds one entry for media 42; the catalog record for
media 42 is `{nameEn := "Film", description := "d"}`; user 2's display name is
"bob". -/

/-- Store in which user 1 follows exactly user 2. -/
def dbScenario : Store := [⟨1, 2⟩]

/-- Well-behaved gateways for the join-correctness scenario. -/
def gwScenario : Gateways where
  getWatchlist := fun i => if i == 2 then .ok [⟨42, 2⟩] else .ok []
  getMediaByID := fun i => if i == 42 then .ok ⟨"Film", "d", 2000⟩ else .error "media not found"
  getUserByID := fun i => if i == 2 then .ok ⟨"bob"⟩ else .error "user not found"
  getReviewsByUser := fun i => if i == 2 then .ok [⟨7, 2, "nice", 5, 42⟩] else .ok []

/-- Gateways whose media catalog is down: every `GetMediaByID` call fails. -/
def gwMediaDown : Gateways where
  getWatchlist := fun i => if i == 2 then .ok [⟨42, 2⟩] else .ok []
  getMediaByID := fun _ => .error "media service down"
  getUserByID := fun i => if i == 2 then .ok ⟨"bob"⟩ else .error "user not found"
  getReviewsByUser := fun i => if i == 2 then .ok [⟨7, 2, "nice", 5, 42⟩] else .ok []

/-- Gateways whose watchlist service returns an entry bearing a foreign user id
(99) when asked for user 2's watchlist. -/
def gwAlienEntry : Gateways where
  getWatchlist := fun i => if i == 2 then .ok [⟨42, 99⟩] else .ok []
  getMediaByID := fun i => if i == 42 then .ok ⟨"Film", "d", 2000⟩ else .error "media not found"
  getUserByID := fun i => if i == 2 then .ok ⟨"bob"⟩ else .error "user not found"
  getReviewsByUser := fun _ => .ok []

/-- Store for the precedence scenario: user 1 follows user 2 and (by a corrupt
row) itself. -/
def dbPrecedence : Store := [⟨1, 2⟩, ⟨1, 1⟩]

theorem watchlistLoopInner_eq (gw : Gateways) (fid : Nat)
    (entries : List ProtoWatchlistItem) : ∀ acc : List WatchlistItem,
    watchlistLoopInner gw fid acc entries =
      match joinEntriesW gw fid entries with
      | .error e => .error e
      | .ok l => .ok (acc ++ l) := by
  induction entries with
  | nil => intro acc; simp [watchlistLoopInner, joinEntriesW]
  | cons e rest ih =>
    intro acc
    simp only [watchlistLoopInner, joinEntriesW, joinEntryW, bind, Except.bind]
    cases gw.getMediaByID e.mediaId with
    | error msg => rfl
    | ok m =>
      cases gw.getUserByID (Int.ofNat fid) with
      | error msg => rfl
      | ok u =>
        simp only [pure, Except.pure, ih]
        cases joinEntriesW gw fid rest with
        | error msg => rfl
        | ok l => simp

theorem watchlistLoopOuter_eq (gw : Gateways) (ids : List Nat) :
    ∀ acc : List WatchlistItem,
    watchlistLoopOuter gw acc ids =
      match joinUsersW gw ids with
      | .error e => .error e
      | .ok l => .ok (acc ++ l) := by
  induction ids with
  | nil => intro acc; simp [watchlistLoopOuter, joinUsersW]
  | cons fid rest ih =>
    intro acc
    simp only [watchlistLoopOuter, joinUsersW, joinUserW, bind, Except.bind]
    cases gw.getWatchlist (Int.ofNat fid) with
    | error msg => rfl
    | ok resp =>
      dsimp only
      rw [watchlistLoopInner_eq]
      cases joinEntriesW gw fid resp with
      | error msg => rfl
      | ok l1 =>
        simp only [ih]
        cases joinUsersW gw rest with
        | error msg => simp
        | ok l2 => simp [pure, Except.pure, List.append_assoc]

/-- `GetWatchlistsBySubscription` with a live context is exactly the
compositional join over the follow-set. -/
theorem repoGetWatchlists_eq_join (db : Store) (gw : Gateways) (u : Nat) :
    repoGetWatchlistsBySubscription false db gw u =
      joinUsersW gw (listFollowed db u) := by
  simp only [repoGetWatchlistsBySubscription, repoGetSubscriptions, if_neg Bool.false_ne_true,
    Bool.false_eq_true, if_false, bind, Except.bind]
  rw [watchlistLoopOuter_eq]
  cases joinUsersW gw (listFollowed db u) with
  | error msg => rfl
  | ok l => simp

theorem reviewLoopInner_eq (gw : Gateways) (fid : Nat)
    (entries : List ProtoReview) : ∀ acc : List ReviewItem,
    reviewLoopInner gw fid acc entries =
      match joinEntriesR gw fid entries with
      | .error e => .error e
      | .ok l => .ok (acc ++ l) := by
  induction entries with
  | nil => intro acc; simp [reviewLoopInner, joinEntriesR]
  | cons rv rest ih =>
    intro acc
    simp only [reviewLoopInner, joinEntriesR, joinEntryR, bind, Except.bind]
    cases gw.getMediaByID rv.mediaId with
    | error msg => rfl
    | ok m =>
      cases gw.getUserByID (Int.ofNat fid) with
      | error msg => rfl
      | ok u =>
        simp only [pure, Except.pure, ih]
        cases joinEntriesR gw fid rest with
        | error msg => rfl
        | ok l => simp

theorem reviewLoopOuter_eq (gw : Gateways) (ids : List Nat) :
    ∀ acc : List ReviewItem,
    reviewLoopOuter gw acc ids =
      match joinUsersR gw ids with
      | .error e => .error e
      | .ok l => .ok (acc ++ l) := by
  induction ids with
  | nil => intro acc; simp [reviewLoopOuter, joinUsersR]
  | cons fid rest ih =>
    intro acc
    simp only [reviewLoopOuter, joinUsersR, joinUserR, bind, Except.bind]
    cases gw.getReviewsByUser (Int.ofNat fid) with
    | error msg => rfl
    | ok resp =>
      dsimp only
      rw [reviewLoopInner_eq]
      cases joinEntriesR gw fid resp with
      | error msg => rfl
      | ok l1 =>
        simp only [ih]
        cases joinUsersR gw rest with
        | error msg => simp
        | ok l2 => simp [pure, Except.pure, List.append_assoc]

/-- `GetReviewsBySubscription` with a live context is exactly the compositional
join over the follow-set. -/
theorem repoGetReviews_eq_join (db : Store) (gw : Gateways) (u : Nat) :
    repoGetReviewsBySubscription false db gw u =
      joinUsersR gw (listFollowed db u) := by
  simp only [repoGetReviewsBySubscription, repoGetSubscriptions, Bool.false_eq_true, if_false,
    bind, Except.bind]
  rw [reviewLoopOuter_eq]
  cases joinUsersR gw (listFollowed db u) with
  | error msg => rfl
  | ok l => simp

/-! ## Inversion and error-propagation lemmas for the join -/

theorem forall₂_mem_right {α β : Type _} {r : α → β → Prop} :
    ∀ {as : List α} {bs : List β}, List.Forall₂ r as bs → ∀ b ∈ bs, ∃ a ∈ as, r a b := by
  intro as bs h
  induction h with
  | nil => intro b hb; cases hb
  | cons hr _ ih =>
    intro b hb
    rcases List.mem_cons.mp hb with rfl | hb
    · exact ⟨_, List.mem_cons_self _ _, hr⟩
    · rcases ih b hb with ⟨a, ha, hra⟩
      exact ⟨a, List.mem_cons_of_mem _ ha, hra⟩

theorem joinEntryW_ok_inv {gw : Gateways} {fid : Nat} {e : ProtoWatchlistItem}
    {it : WatchlistItem} (h : joinEntryW gw fid e = .ok it) :
    ∃ m u, gw.getMediaByID e.mediaId = .ok m ∧ gw.getUserByID (Int.ofNat fid) = .ok u ∧
      it = { mediaId := e.mediaId, userId := e.userId, userName := u.username,
             title := m.nameEn, description := m.description } := by
  simp only [joinEntryW, bind, Except.bind] at h
  split at h
  · exact Except.noConfusion h
  rename_i m hm
  split at h
  · exact Except.noConfusion h
  rename_i u hu
  simp only [pure, Except.pure, Except.ok.injEq] at h
  exact ⟨m, u, hm, hu, h.symm⟩

theorem joinEntriesW_ok_forall₂ {gw : Gateways} {fid : Nat} :
    ∀ {es : List ProtoWatchlistItem} {l : List WatchlistItem},
      joinEntriesW gw fid es = .ok l →
      List.Forall₂ (fun e it => joinEntryW gw fid e = .ok it) es l := by
  intro es
  induction es with
  | nil =>
    intro l h
    simp only [joinEntriesW] at h
    cases h
    exact List.Forall₂.nil
  | cons e rest ih =>
    intro l h
    simp only [joinEntriesW, bind, Except.bind] at h
    split at h
    · exact Except.noConfusion h
    rename_i it0 hit0
    split at h
    · exact Except.noConfusion h
    rename_i l0 hl0
    simp only [pure, Except.pure, Except.ok.injEq] at h
    cases h
    exact List.Forall₂.cons hit0 (ih hl0)

theorem joinUsersW_ok_flatten {gw : Gateways} :
    ∀ {ids : List Nat} {out : List WatchlistItem}, joinUsersW gw ids = .ok out →
      ∃ per : List (List WatchlistItem),
        List.Forall₂ (fun fid l => joinUserW gw fid = .ok l) ids per ∧
        out = per.flatten := by
  intro ids
  induction ids with
  | nil =>
    intro out h
    simp only [joinUsersW] at h
    cases h
    exact ⟨[], List.Forall₂.nil, rfl⟩
  | cons fid rest ih =>
    intro out h
    simp only [joinUsersW, bind, Except.bind] at h
    split at h
    · exact Except.noConfusion h
    rename_i l1 hl1
    split at h
    · exact Except.noConfusion h
    rename_i l2 hl2
    simp only [pure, Except.pure, Except.ok.injEq] at h
    cases h
    rcases ih hl2 with ⟨per, hper, rfl⟩
    exact ⟨l1 :: per, List.Forall₂.cons hl1 hper, by simp⟩

theorem joinUserW_ok_inv {gw : Gateways} {fid : Nat} {l : List WatchlistItem}
    (h : joinUserW gw fid = .ok l) :
    ∃ es, gw.getWatchlist (Int.ofNat fid) = .ok es ∧ joinEntriesW gw fid es = .ok l := by
  simp only [joinUserW, bind, Except.bind] at h
  split at h
  · exact Except.noConfusion h
  rename_i es hes
  exact ⟨es, hes, h⟩

theorem joinEntryW_error_of {gw : Gateways} {fid : Nat} {e : ProtoWatchlistItem}
    (h : (∃ msg, gw.getMediaByID e.mediaId = .error msg) ∨
         (∃ msg, gw.getUserByID (Int.ofNat fid) = .error msg)) :
    ∃ msg, joinEntryW gw fid e = .error msg := by
  simp only [joinEntryW, bind, Except.bind]
  cases hm : gw.getMediaByID e.mediaId with
  | error msg => exact ⟨msg, rfl⟩
  | ok m =>
    cases hu : gw.getUserByID (Int.ofNat fid) with
    | error msg => exact ⟨msg, rfl⟩
    | ok u =>
      rcases h with ⟨msg, hmsg⟩ | ⟨msg, hmsg⟩
      · rw [hm] at hmsg; exact Except.noConfusion hmsg
      · rw [hu] at hmsg; exact Except.noConfusion hmsg

theorem joinEntriesW_error_of_mem {gw : Gateways} {fid : Nat} {e : ProtoWatchlistItem} :
    ∀ {es : List ProtoWatchlistItem}, e ∈ es → (∃ msg, joinEntryW gw fid e = .error msg) →
      ∃ msg, joinEntriesW gw fid es = .error msg := by
  intro es
  induction es with
  | nil => intro he _; cases he
  | cons e' rest ih =>
    intro he herr
    simp only [joinEntriesW, bind, Except.bind]
    rcases List.mem_cons.mp he with rfl | he'
    · rcases herr with ⟨msg, hmsg⟩
      rw [hmsg]
      exact ⟨msg, rfl⟩
    · cases hj : joinEntryW gw fid e' with
      | error msg => exact ⟨msg, rfl⟩
      | ok it =>
        rcases ih he' herr with ⟨msg, hmsg⟩
        rw [hmsg]
        exact ⟨msg, rfl⟩

theorem joinUserW_error_of {gw : Gateways} {fid : Nat}
    (h : (∃ msg, gw.getWatchlist (Int.ofNat fid) = .error msg) ∨
         (∃ es, gw.getWatchlist (Int.ofNat fid) = .ok es ∧
            ∃ e ∈ es, ∃ msg, joinEntryW gw fid e = .error msg)) :
    ∃ msg, joinUserW gw fid = .error msg := by
  simp only [joinUserW, bind, Except.bind]
  rcases h with ⟨msg, hmsg⟩ | ⟨es, hes, e, he, herr⟩
  · rw [hmsg]; exact ⟨msg, rfl⟩
  · rw [hes]
    rcases joinEntriesW_error_of_mem he herr with ⟨msg, hmsg⟩
    exact ⟨msg, hmsg⟩

theorem joinUsersW_error_of_mem {gw : Gateways} {fid : Nat} :
    ∀ {ids : List Nat}, fid ∈ ids → (∃ msg, joinUserW gw fid = .error msg) →
      ∃ msg, joinUsersW gw ids = .error msg := by
  intro ids
  induction ids with
  | nil => intro h _; cases h
  | cons fid' rest ih =>
    intro hmem herr
    simp only [joinUsersW, bind, Except.bind]
    rcases List.mem_cons.mp hmem with rfl | hmem'
    · rcases herr with ⟨msg, hmsg⟩
      rw [hmsg]
      exact ⟨msg, rfl⟩
    · cases hj : joinUserW gw fid' with
      | error msg => exact ⟨msg, rfl⟩
      | ok l1 =>
        rcases ih hmem' herr with ⟨msg, hmsg⟩
        rw [hmsg]
        exact ⟨msg, rfl⟩

theorem joinEntryR_ok_inv {gw : Gateways} {fid : Nat} {rv : ProtoReview}
    {it : ReviewItem} (h : joinEntryR gw fid rv = .ok it) :
    ∃ m u, gw.getMediaByID rv.mediaId = .ok m ∧ gw.getUserByID (Int.ofNat fid) = .ok u ∧
      it = { reviewId := rv.id, userId := rv.userId, userName := u.username,
             content := rv.content, rating := rv.rating, mediaName := m.nameEn,
             mediaYear := m.year } := by
  simp only [joinEntryR, bind, Except.bind] at h
  split at h
  · exact Except.noConfusion h
  rename_i m hm
  split at h
  · exact Except.noConfusion h
  rename_i u hu
  simp only [pure, Except.pure, Except.ok.injEq] at h
  exact ⟨m, u, hm, hu, h.symm⟩

theorem joinEntriesR_ok_forall₂ {gw : Gateways} {fid : Nat} :
    ∀ {es : List ProtoReview} {l : List ReviewItem},
      joinEntriesR gw fid es = .ok l →
      List.Forall₂ (fun rv it => joinEntryR gw fid rv = .ok it) es l := by
  intro es
  induction es with
  | nil =>
    intro l h
    simp only [joinEntriesR] at h
    cases h
    exact List.Forall₂.nil
  | cons rv rest ih =>
    intro l h
    simp only [joinEntriesR, bind, Except.bind] at h
    split at h
    · exact Except.noConfusion h
    rename_i it0 hit0
    split at h
    · exact Except.noConfusion h
    rename_i l0 hl0
    simp only [pure, Except.pure, Except.ok.injEq] at h
    cases h
    exact List.Forall₂.cons hit0 (ih hl0)

theorem joinUsersR_ok_flatten {gw : Gateways} :
    ∀ {ids : List Nat} {out : List ReviewItem}, joinUsersR gw ids = .ok out →
      ∃ per : List (List ReviewItem),
        List.Forall₂ (fun fid l => joinUserR gw fid = .ok l) ids per ∧
        out = per.flatten := by
  intro ids
  induction ids with
  | nil =>
    intro out h
    simp only [joinUsersR] at h
    cases h
    exact ⟨[], List.Forall₂.nil, rfl⟩
  | cons fid rest ih =>
    intro out h
    simp only [joinUsersR, bind, Except.bind] at h
    split at h
    · exact Except.noConfusion h
    rename_i l1 hl1
    split at h
    · exact Except.noConfusion h
    rename_i l2 hl2
    simp only [pure, Except.pure, Except.ok.injEq] at h
    cases h
    rcases ih hl2 with ⟨per, hper, rfl⟩
    exact ⟨l1 :: per, List.Forall₂.cons hl1 hper, by simp⟩

theorem joinUserR_ok_inv {gw : Gateways} {fid : Nat} {l : List ReviewItem}
    (h : joinUserR gw fid = .ok l) :
    ∃ es, gw.getReviewsByUser (Int.ofNat fid) = .ok es ∧ joinEntriesR gw fid es = .ok l := by
  simp only [joinUserR, bind, Except.bind] at h
  split at h
  · exact Except.noConfusion h
  rename_i es hes
  exact ⟨es, hes, h⟩

theorem joinEntryR_error_of {gw : Gateways} {fid : Nat} {rv : ProtoReview}
    (h : (∃ msg, gw.getMediaByID rv.mediaId = .error msg) ∨
         (∃ msg, gw.getUserByID (Int.ofNat fid) = .error msg)) :
    ∃ msg, joinEntryR gw fid rv = .error msg := by
  simp only [joinEntryR, bind, Except.bind]
  cases hm : gw.getMediaByID rv.mediaId with
  | error msg => exact ⟨msg, rfl⟩
  | ok m =>
    cases hu : gw.getUserByID (Int.ofNat fid) with
    | error msg => exact ⟨msg, rfl⟩
    | ok u =>
      rcases h with ⟨msg, hmsg⟩ | ⟨msg, hmsg⟩
      · rw [hm] at hmsg; exact Except.noConfusion hmsg
      · rw [hu] at hmsg; exact Except.noConfusion hmsg

theorem joinEntriesR_error_of_mem {gw : Gateways} {fid : Nat} {rv : ProtoReview} :
    ∀ {es : List ProtoReview}, rv ∈ es → (∃ msg, joinEntryR gw fid rv = .error msg) →
      ∃ msg, joinEntriesR gw fid es = .error msg := by
  intro es
  induction es with
  | nil => intro he _; cases he
  | cons rv' rest ih =>
    intro he herr
    simp only [joinEntriesR, bind, Except.bind]
    rcases List.mem_cons.mp he with rfl | he'
    · rcases herr with ⟨msg, hmsg⟩
      rw [hmsg]
      exact ⟨msg, rfl⟩
    · cases hj : joinEntryR gw fid rv' with
      | error msg => exact ⟨msg, rfl⟩
      | ok it =>
        rcases ih he' herr with ⟨msg, hmsg⟩
        rw [hmsg]
        exact ⟨msg, rfl⟩

theorem joinUserR_error_of {gw : Gateways} {fid : Nat}
    (h : (∃ msg, gw.getReviewsByUser (Int.ofNat fid) = .error msg) ∨
         (∃ es, gw.getReviewsByUser (Int.ofNat fid) = .ok es ∧
            ∃ rv ∈ es, ∃ msg, joinEntryR gw fid rv = .error msg)) :
    ∃ msg, joinUserR gw fid = .error msg := by
  simp only [joinUserR, bind, Except.bind]
  rcases h with ⟨msg, hmsg⟩ | ⟨es, hes, rv, he, herr⟩
  · rw [hmsg]; exact ⟨msg, rfl⟩
  · rw [hes]
    rcases joinEntriesR_error_of_mem he herr with ⟨msg, hmsg⟩
    exact ⟨msg, hmsg⟩

theorem joinUsersR_error_of_mem {gw : Gateways} {fid : Nat} :
    ∀ {ids : List Nat}, fid ∈ ids → (∃ msg, joinUserR gw fid = .error msg) →
      ∃ msg, joinUsersR gw ids = .error msg := by
  intro ids
  induction ids with
  | nil => intro h _; cases h
  | cons fid' rest ih =>
    intro hmem herr
    simp only [joinUsersR, bind, Except.bind]
    rcases List.mem_cons.mp hmem with rfl | hmem'
    · rcases herr with ⟨msg, hmsg⟩
      rw [hmsg]
      exact ⟨msg, rfl⟩
    · cases hj : joinUserR gw fid' with
      | error msg => exact ⟨msg, rfl⟩
      | ok l1 =>
        rcases ih hmem' herr with ⟨msg, hmsg⟩
        rw [hmsg]
        exact ⟨msg, rfl⟩

/-- The service layer maps a failed repository aggregation to `Internal`. -/
theorem svcGetWatchlists_internal_of_error {db : Store} {gw : Gateways} {u : Nat}
    (h : ∃ msg, repoGetWatchlistsBySubscription false db gw u = .error msg) :
    svcGetWatchlistsBySubscription false db gw u = .error .internal := by
  rcases h with ⟨msg, hmsg⟩
  simp only [svcGetWatchlistsBySubscription, Bool.false_eq_true, if_false, hmsg]

/-- The service layer maps a failed review aggregation to `Internal`. -/
theorem svcGetReviews_internal_of_error {db : Store} {gw : Gateways} {u : Nat}
    (h : ∃ msg, repoGetReviewsBySubscription false db gw u = .error msg) :
    svcGetReviewsBySubscription false db gw u = .error .internal := by
  rcases h with ⟨msg, hmsg⟩
  simp only [svcGetReviewsBySubscription, Bool.false_eq_true, if_false, hmsg]

/-- With a live context the service-layer existence probe is exactly the pure
edge lookup. -/
theorem svcIsSubscribed_false (db : Store) (a b : Nat) :
    svcIsSubscribed false db a b = .ok (edgeExists db a b) := rfl

/-! ## Claims -/

/-- Claim C1 — Aggregate join correctness: in the scenario where user 1 follows
exactly user 2, user 2's watchlist holds one entry for media 42 with catalog
record `{nameEn := "Film", description := "d"}` and display name "bob",
`GetWatchlistsBySubscription 1` returns exactly one item
`{mediaID := 42, userID := 2, userName := "bob", title := "Film",
description := "d"}`; and in general every emitted item combines a watchlist
entry's media id and user id with the catalog record for that media id and the
followed user's display name. -/
theorem aggregate_join_correctness :
    (svcGetWatchlistsBySubscription false dbScenario gwScenario 1 =
      .ok [{ mediaId := 42, userId := 2, userName := "bob", title := "Film",
             description := "d" }]) ∧
    ∀ (db : Store) (gw : Gateways) (u : Nat) (out : List WatchlistItem),
      repoGetWatchlistsBySubscription false db gw u = .ok out →
      ∀ it ∈ out, ∃ fid ∈ listFollowed db u,
        ∃ es, gw.getWatchlist (Int.ofNat fid) = .ok es ∧
        ∃ e ∈ es, ∃ m ur, gw.getMediaByID e.mediaId = .ok m ∧
          gw.getUserByID (Int.ofNat fid) = .ok ur ∧
          it = { mediaId := e.mediaId, userId := e.userId, userName := ur.username,
                 title := m.nameEn, description := m.description } := by
  constructor
  · rfl
  · intro db gw u out h it hit
    rw [repoGetWatchlists_eq_join] at h
    rcases joinUsersW_ok_flatten h with ⟨per, hper, rfl⟩
    rcases List.mem_flatten.mp hit with ⟨l, hl, hitl⟩
    rcases forall₂_mem_right hper l hl with ⟨fid, hfid, hjoin⟩
    rcases joinUserW_ok_inv hjoin with ⟨es, hes, hentries⟩
    rcases forall₂_mem_right (joinEntriesW_ok_forall₂ hentries) it hitl with ⟨e, he, hentry⟩
    rcases joinEntryW_ok_inv hentry with ⟨m, ur, hm, hu, heq⟩
    exact ⟨fid, hfid, es, hes, e, he, m, ur, hm, hu, heq⟩

/-- Witness for C1's general part, instantiated at the scenario store and
gateways. -/
theorem aggregate_join_correctness_witness :
    ∃ fid ∈ listFollowed dbScenario 1,
      ∃ es, gwScenario.getWatchlist (Int.ofNat fid) = .ok es ∧
      ∃ e ∈ es, ∃ m ur, gwScenario.getMediaByID e.mediaId = .ok m ∧
        gwScenario.getUserByID (Int.ofNat fid) = .ok ur ∧
        ({ mediaId := 42, userId := 2, userName := "bob", title := "Film",
           description := "d" } : WatchlistItem) =
          { mediaId := e.mediaId, userId := e.userId, userName := ur.username,
            title := m.nameEn, description := m.description } :=
  aggregate_join_correctness.2 dbScenario gwScenario 1
    [{ mediaId := 42, userId := 2, userName := "bob", title := "Film",
       description := "d" }] rfl _ (List.mem_singleton.mpr rfl)

/-- Claim C2 — Fail-fast on downstream error: if any downstream lookup the
aggregation performs (watchlist/review fetch for a followed id, catalog fetch
for one of its entries, or the user-name fetch) fails, the whole
`GetWatchlistsBySubscription`/`GetReviewsBySubscription` call fails with
`Internal`; the `Except` result carries no items, so no partial list is
returned. -/
theorem downstream_error_fail_fast (db : Store) (gw : Gateways) (u : Nat) :
    ((∃ fid ∈ listFollowed db u,
        (∃ msg, gw.getWatchlist (Int.ofNat fid) = .error msg) ∨
        (∃ es, gw.getWatchlist (Int.ofNat fid) = .ok es ∧
          ∃ e ∈ es, (∃ msg, gw.getMediaByID e.mediaId = .error msg) ∨
                    (∃ msg, gw.getUserByID (Int.ofNat fid) = .error msg))) →
      svcGetWatchlistsBySubscription false db gw u = .error .internal) ∧
    ((∃ fid ∈ listFollowed db u,
        (∃ msg, gw.getReviewsByUser (Int.ofNat fid) = .error msg) ∨
        (∃ es, gw.getReviewsByUser (Int.ofNat fid) = .ok es ∧
          ∃ rv ∈ es, (∃ msg, gw.getMediaByID rv.mediaId = .error msg) ∨
                     (∃ msg, gw.getUserByID (Int.ofNat fid) = .error msg))) →
      svcGetReviewsBySubscription false db gw u = .error .internal) := by
  constructor
  · rintro ⟨fid, hfid, hfail⟩
    apply svcGetWatchlists_internal_of_error
    rw [repoGetWatchlists_eq_join]
    apply joinUsersW_error_of_mem hfid
    apply joinUserW_error_of
    rcases hfail with hw | ⟨es, hes, e, he, herr⟩
    · exact Or.inl hw
    · exact Or.inr ⟨es, hes, e, he, joinEntryW_error_of herr⟩
  · rintro ⟨fid, hfid, hfail⟩
    apply svcGetReviews_internal_of_error
    rw [repoGetReviews_eq_join]
    apply joinUsersR_error_of_mem hfid
    apply joinUserR_error_of
    rcases hfail with hw | ⟨es, hes, rv, he, herr⟩
    · exact Or.inl hw
    · exact Or.inr ⟨es, hes, rv, he, joinEntryR_error_of herr⟩

/-- Witness for C2: with the media catalog down, both aggregate calls over the
scenario store fail with `Internal`. -/
theorem downstream_error_fail_fast_witness :
    svcGetWatchlistsBySubscription false dbScenario gwMediaDown 1 = .error .internal ∧
    svcGetReviewsBySubscription false dbScenario gwMediaDown 1 = .error .internal :=
  ⟨(downstream_error_fail_fast dbScenario gwMediaDown 1).1
      ⟨2, by decide, Or.inr ⟨[⟨42, 2⟩], rfl, ⟨42, 2⟩, List.mem_singleton.mpr rfl,
        Or.inl ⟨"media service down", rfl⟩⟩⟩,
   (downstream_error_fail_fast dbScenario gwMediaDown 1).2
      ⟨2, by decide, Or.inr ⟨[⟨7, 2, "nice", 5, 42⟩], rfl, ⟨7, 2, "nice", 5, 42⟩,
        List.mem_singleton.mpr rfl, Or.inl ⟨"media service down", rfl⟩⟩⟩⟩

/-- Claim C3 — Self-follow rejection: for every id `a` and every store state,
`Subscribe a a` with a live context fails with `InvalidArgument` and leaves the
store unchanged (no edge is created). -/
theorem self_follow_rejected (a : Nat) (db : Store) :
    svcSubscribe false db a a = (.error .invalidArgument, db) := by
  simp [svcSubscribe]

/-- Claim C4 — Idempotent rejection of duplicates: after a successful
`Subscribe a b`, repeating `Subscribe a b` fails with `AlreadyExists`, leaves
the store unchanged, and the store holds exactly one edge `(a, b)`. -/
theorem duplicate_subscribe_rejected (a b : Nat) (db : Store)
    (hok : (svcSubscribe false db a b).fst = .ok ()) :
    svcSubscribe false (svcSubscribe false db a b).snd a b =
      (.error .alreadyExists, (svcSubscribe false db a b).snd) ∧
    countEdge (svcSubscribe false db a b).snd a b = 1 := by
  by_cases hab : a = b
  · simp [svcSubscribe, hab] at hok
  by_cases hex : edgeExists db a b = true
  · simp [svcSubscribe, svcIsSubscribed_false, hab, hex] at hok
  have hexf : edgeExists db a b = false := by
    cases hfe : edgeExists db a b with
    | true => exact absurd hfe hex
    | false => rfl
  have hsnd : svcSubscribe false db a b = (.ok (), db ++ [⟨a, b⟩]) := by
    simp [svcSubscribe, svcIsSubscribed_false, hab, hexf, repoSubscribe]
  rw [hsnd]
  have hex2 : edgeExists (db ++ [⟨a, b⟩]) a b = true := by
    simp [edgeExists]
  constructor
  · simp [svcSubscribe, svcIsSubscribed_false, hab, hex2]
  · have hz : List.countP (fun s => s.subscriberID == a && s.userID == b) db = 0 := by
      refine List.countP_eq_zero.mpr ?_
      simpa [edgeExists, List.any_eq_false] using hexf
    simp [countEdge, List.countP_append, hz, List.countP_cons]

/-- Witness for C4, from the empty store with `a = 1`, `b = 2`. -/
theorem duplicate_subscribe_rejected_witness :
    (svcSubscribe false ([] : Store) 1 2).fst = .ok () ∧
    (svcSubscribe false (svcSubscribe false ([] : Store) 1 2).snd 1 2 =
      (.error .alreadyExists, (svcSubscribe false ([] : Store) 1 2).snd) ∧
     countEdge (svcSubscribe false ([] : Store) 1 2).snd 1 2 = 1) :=
  ⟨rfl, duplicate_subscribe_rejected 1 2 [] rfl⟩

/-- Claim C5 — Unsubscribe-without-edge at the public surface: with no edge
`(a, b)` in the store, the public `Unsubscribe a b` with a live context fails
with `NotFound` and the store is unchanged. -/
theorem unsubscribe_without_edge (a b : Nat) (db : Store)
    (h : edgeExists db a b = false) :
    svcUnsubscribe false db a b = (.error .notFound, db) := by
  simp [svcUnsubscribe, svcIsSubscribed_false, h]

/-- Witness for C5: the empty store holds no edge `(1, 2)`. -/
theorem unsubscribe_without_edge_witness :
    edgeExists ([] : Store) 1 2 = false ∧
    svcUnsubscribe false ([] : Store) 1 2 = (.error .notFound, ([] : Store)) :=
  ⟨rfl, unsubscribe_without_edge 1 2 [] rfl⟩

/-- Counterexample to claim C6 as stated: on the empty store — which holds no
edge `(1, 2)` — the repository-level `Unsubscribe` (the Edge Store `Delete`,
a gorm `Where(...).Delete(...)`) succeeds as a no-op instead of failing; the
repository layer never produces a `NotFound` for an absent edge. -/
theorem repo_delete_absent_cex :
    edgeExists ([] : Store) 1 2 = false ∧
    repoUnsubscribe false ([] : Store) 1 2 = (.ok (), ([] : Store)) :=
  ⟨rfl, rfl⟩

/-- Claim C6 (amended) — Edge Store `Delete` on an absent edge: for every pair
`(a, b)` with no edge `(a, b)` in the store, the repository-level `Unsubscribe`
succeeds as a no-op, leaving the store unchanged; the `NotFound` classification
for an absent edge is produced only by the service-layer `Unsubscribe`
pre-check, never by the repository. -/
theorem repo_delete_absent_noop (a b : Nat) (db : Store)
    (h : edgeExists db a b = false) :
    repoUnsubscribe false db a b = (.ok (), db) := by
  simp only [repoUnsubscribe, Bool.false_eq_true, if_false]
  have h' : db.any (fun s => s.subscriberID == a && s.userID == b) = false := h
  have hall : ∀ s ∈ db, (!(s.subscriberID == a && s.userID == b)) = true := by
    intro s hs
    have hns := List.any_eq_false.mp h' s hs
    simp only [Bool.not_eq_true] at hns
    simp [hns]
  rw [List.filter_eq_self.mpr hall]

/-- Witness for C6's amended claim on a store with one unrelated edge. -/
theorem repo_delete_absent_noop_witness :
    edgeExists [(⟨3, 4⟩ : GormSubscription)] 1 2 = false ∧
    repoUnsubscribe false [(⟨3, 4⟩ : GormSubscription)] 1 2 =
      (.ok (), [(⟨3, 4⟩ : GormSubscription)]) :=
  ⟨rfl, repo_delete_absent_noop 1 2 [⟨3, 4⟩] rfl⟩

/-- Claim C7 — Deterministic output ordering: a successful aggregate is the
concatenation, in the iteration order of the resolved followed ids, of one list
per followed user, each of which joins that user's downstream entries in the
order the downstream service returned them (`List.Forall₂` pairs `es` with the
per-user output positionally); no re-sorting is applied. -/
theorem aggregate_output_ordering (db : Store) (gw : Gateways) (u : Nat) :
    (∀ out : List WatchlistItem,
      repoGetWatchlistsBySubscription false db gw u = .ok out →
      ∃ per : List (List WatchlistItem),
        List.Forall₂ (fun fid l => ∃ es, gw.getWatchlist (Int.ofNat fid) = .ok es ∧
          List.Forall₂ (fun e it => joinEntryW gw fid e = .ok it) es l)
          (listFollowed db u) per ∧
        out = per.flatten) ∧
    (∀ out : List ReviewItem,
      repoGetReviewsBySubscription false db gw u = .ok out →
      ∃ per : List (List ReviewItem),
        List.Forall₂ (fun fid l => ∃ es, gw.getReviewsByUser (Int.ofNat fid) = .ok es ∧
          List.Forall₂ (fun rv it => joinEntryR gw fid rv = .ok it) es l)
          (listFollowed db u) per ∧
        out = per.flatten) := by
  constructor
  · intro out h
    rw [repoGetWatchlists_eq_join] at h
    rcases joinUsersW_ok_flatten h with ⟨per, hper, rfl⟩
    refine ⟨per, hper.imp ?_, rfl⟩
    intro fid l hj
    rcases joinUserW_ok_inv hj with ⟨es, hes, hentries⟩
    exact ⟨es, hes, joinEntriesW_ok_forall₂ hentries⟩
  · intro out h
    rw [repoGetReviews_eq_join] at h
    rcases joinUsersR_ok_flatten h with ⟨per, hper, rfl⟩
    refine ⟨per, hper.imp ?_, rfl⟩
    intro fid l hj
    rcases joinUserR_ok_inv hj with ⟨es, hes, hentries⟩
    exact ⟨es, hes, joinEntriesR_ok_forall₂ hentries⟩

/-- Witness for C7 at the scenario store and gateways. -/
theorem aggregate_output_ordering_witness :
    ∃ per : List (List WatchlistItem),
      List.Forall₂ (fun fid l => ∃ es, gwScenario.getWatchlist (Int.ofNat fid) = .ok es ∧
        List.Forall₂ (fun e it => joinEntryW gwScenario fid e = .ok it) es l)
        (listFollowed dbScenario 1) per ∧
      ([{ mediaId := 42, userId := 2, userName := "bob", title := "Film",
          description := "d" }] : List WatchlistItem) = per.flatten :=
  (aggregate_output_ordering dbScenario gwScenario 1).1
    [{ mediaId := 42, userId := 2, userName := "bob", title := "Film",
       description := "d" }] rfl

/-- Counterexample to claim C8 as stated: the code copies the emitted item's
`userID` from the downstream watchlist entry (`UserId: watchlistItem.UserId`),
not from the followed id it queried, so a watchlist service that returns an
entry bearing user id 99 for user 2's watchlist makes
`GetWatchlistsBySubscription 1` succeed with an item whose `userID` (99) is not
in `ListFollowed 1 = [2]`. -/
theorem aggregate_follow_set_cex :
    svcGetWatchlistsBySubscription false dbScenario gwAlienEntry 1 =
      .ok [{ mediaId := 42, userId := 99, userName := "bob", title := "Film",
             description := "d" }] ∧
    listFollowed dbScenario 1 = [2] ∧
    ¬ ((99 : Int) ∈ ([2].map Int.ofNat)) := by
  refine ⟨rfl, rfl, ?_⟩
  decide

/-- Claim C8 (amended) — Follow-set membership of aggregate items: provided
every watchlist (resp. review) entry the downstream source returns for a
queried followed id carries that id as its user id, every item of a successful
`GetWatchlistsBySubscription u` (resp. `GetReviewsBySubscription u`) has a
`userID` in `ListFollowed u`, and its `userName` is the display name the user
service returns for that followed id. -/
theorem aggregate_follow_set (db : Store) (gw : Gateways) (u : Nat) :
    ((∀ fid ∈ listFollowed db u, ∀ es, gw.getWatchlist (Int.ofNat fid) = .ok es →
        ∀ e ∈ es, e.userId = Int.ofNat fid) →
      ∀ out, repoGetWatchlistsBySubscription false db gw u = .ok out →
      ∀ it ∈ out, ∃ fid ∈ listFollowed db u, it.userId = Int.ofNat fid ∧
        ∃ ur, gw.getUserByID (Int.ofNat fid) = .ok ur ∧ it.userName = ur.username) ∧
    ((∀ fid ∈ listFollowed db u, ∀ es, gw.getReviewsByUser (Int.ofNat fid) = .ok es →
        ∀ rv ∈ es, rv.userId = Int.ofNat fid) →
      ∀ out, repoGetReviewsBySubscription false db gw u = .ok out →
      ∀ it ∈ out, ∃ fid ∈ listFollowed db u, it.userId = Int.ofNat fid ∧
        ∃ ur, gw.getUserByID (Int.ofNat fid) = .ok ur ∧ it.userName = ur.username) := by
  constructor
  · intro hecho out h it hit
    rw [repoGetWatchlists_eq_join] at h
    rcases joinUsersW_ok_flatten h with ⟨per, hper, rfl⟩
    rcases List.mem_flatten.mp hit with ⟨l, hl, hitl⟩
    rcases forall₂_mem_right hper l hl with ⟨fid, hfid, hjoin⟩
    rcases joinUserW_ok_inv hjoin with ⟨es, hes, hentries⟩
    rcases forall₂_mem_right (joinEntriesW_ok_forall₂ hentries) it hitl with ⟨e, he, hentry⟩
    rcases joinEntryW_ok_inv hentry with ⟨m, ur, _, hu, heq⟩
    refine ⟨fid, hfid, ?_, ur, hu, ?_⟩
    · rw [heq]
      exact hecho fid hfid es hes e he
    · rw [heq]
  · intro hecho out h it hit
    rw [repoGetReviews_eq_join] at h
    rcases joinUsersR_ok_flatten h with ⟨per, hper, rfl⟩
    rcases List.mem_flatten.mp hit with ⟨l, hl, hitl⟩
    rcases forall₂_mem_right hper l hl with ⟨fid, hfid, hjoin⟩
    rcases joinUserR_ok_inv hjoin with ⟨es, hes, hentries⟩
    rcases forall₂_mem_right (joinEntriesR_ok_forall₂ hentries) it hitl with ⟨rv, he, hentry⟩
    rcases joinEntryR_ok_inv hentry with ⟨m, ur, _, hu, heq⟩
    refine ⟨fid, hfid, ?_, ur, hu, ?_⟩
    · rw [heq]
      exact hecho fid hfid es hes rv he
    · rw [heq]

/-- Witness for C8's amended claim at the scenario store and gateways. -/
theorem aggregate_follow_set_witness :
    ∃ fid ∈ listFollowed dbScenario 1,
      ({ mediaId := 42, userId := 2, userName := "bob", title := "Film",
         description := "d" } : WatchlistItem).userId = Int.ofNat fid ∧
      ∃ ur, gwScenario.getUserByID (Int.ofNat fid) = .ok ur ∧
        ({ mediaId := 42, userId := 2, userName := "bob", title := "Film",
           description := "d" } : WatchlistItem).userName = ur.username :=
  (aggregate_follow_set dbScenario gwScenario 1).1
    (by
      intro fid hfid es hes e he
      have hfid2 : fid = 2 := by
        simpa [listFollowed, dbScenario] using hfid
      subst hfid2
      have hes2 : es = [⟨42, 2⟩] := by
        have : (Except.ok [(⟨42, 2⟩ : ProtoWatchlistItem)] :
            Except String (List ProtoWatchlistItem)) = .ok es := by
          rw [← hes]; rfl
        simpa using this.symm
      subst hes2
      have he2 : e = ⟨42, 2⟩ := by simpa using he
      subst he2
      rfl)
    [{ mediaId := 42, userId := 2, userName := "bob", title := "Film",
       description := "d" }] rfl _ (List.mem_singleton.mpr rfl)

/-- Claim C9 — Cancellation fail-fast: every public operation invoked with an
already-cancelled context fails with `Cancelled`; the result is the same for
every store and every gateway behaviour and the store is unchanged, so no
storage query or gateway call contributes to it. -/
theorem cancelled_context_fail_fast (db : Store) (gw : Gateways) (a b u : Nat) :
    svcSubscribe true db a b = (.error .canceled, db) ∧
    svcUnsubscribe true db a b = (.error .canceled, db) ∧
    svcGetSubscriptions true db u = .error .canceled ∧
    svcGetSubscribers true db u = .error .canceled ∧
    svcIsSubscribed true db a b = .error .canceled ∧
    svcGetWatchlistsBySubscription true db gw u = .error .canceled ∧
    svcGetReviewsBySubscription true db gw u = .error .canceled :=
  ⟨rfl, rfl, rfl, rfl, rfl, rfl, rfl⟩

/-- Claim C10 — Error-classification precedence in `Subscribe`: with a
cancelled context, `Subscribe a a` returns `Cancelled` (not `InvalidArgument`);
with a live context, `Subscribe a a` returns `InvalidArgument` with the store
untouched for every store state — even one containing an `(a, a)` edge; and
with a live context and the edge `(a, b)` present, `Subscribe a b` returns
`AlreadyExists` without inserting. -/
theorem subscribe_classification_precedence (a b : Nat) (db : Store)
    (hne : a ≠ b) (hab : edgeExists db a b = true) :
    svcSubscribe true db a a = (.error .canceled, db) ∧
    svcSubscribe false db a a = (.error .invalidArgument, db) ∧
    svcSubscribe false db a b = (.error .alreadyExists, db) := by
  refine ⟨rfl, by simp [svcSubscribe], ?_⟩
  simp [svcSubscribe, svcIsSubscribed_false, hne, hab]

/-- Witness for C10 at `a = 1`, `b = 2` over a store holding both the `(1, 2)`
edge and a corrupt `(1, 1)` edge. -/
theorem subscribe_classification_precedence_witness :
    (1 : Nat) ≠ 2 ∧ edgeExists dbPrecedence 1 2 = true ∧
    (svcSubscribe true dbPrecedence 1 1 = (.error .canceled, dbPrecedence) ∧
     svcSubscribe false dbPrecedence 1 1 = (.error .invalidArgument, dbPrecedence) ∧
     svcSubscribe false dbPrecedence 1 2 = (.error .alreadyExists, dbPrecedence)) :=
  ⟨by decide, rfl, subscribe_classification_precedence 1 2 dbPrecedence (by decide) rfl⟩

end Subscription
